import Mathlib

/-!
Shallow embedding of the PVR client registry and dispatch manager
(xbmc/pvr/addons/PVRClients.cpp) together with theorems settling the
specification claims about it.

Modelling conventions:
* std::hash<std::string> is implementation defined, so the hasher is an
  explicit parameter of type String -> Nat (a size_t value).
* machine integers are modelled as Int with explicit truncation at 32 bits
  where the code casts size_t to int; signed negation overflow at INT_MIN is
  modelled as two's-complement wrap (the C++ has undefined behavior there).
* the registry std::map<int, std::shared_ptr<CPVRClient>> is modelled as an
  association list ordered by key; std::map insertion is an ordered
  insert-if-absent, iteration is list order.
* side effects (stopping playback, recreating / destroying a client,
  stopping / starting the PVR manager, progress reporting, event-log jobs)
  are recorded as an explicit event trace; invocations performed by the
  dispatcher are recorded as an invocation trace.
-/

namespace PVRClients

/-- PVR API error codes (subset of PVR_ERROR relevant to the dispatcher). -/
inductive PVRError where
  | noError
  | unknownError
  | notImplemented
  | serverError
  | serverTimeout
  | rejected
  | recordingRunning
  | failed
deriving DecidableEq, Repr

/-- Addon creation status (subset of ADDON_STATUS used by UpdateAddons). -/
inductive AddonStatus where
  | ok
  | lostConnection
  | needRestart
  | needSettings
  | unknownStatus
  | permanentFailure
deriving DecidableEq, Repr

/-- Connection states of PVR_CONNECTION_STATE. -/
inductive PVRConnectionState where
  | unknown
  | serverUnreachable
  | serverMismatch
  | versionMismatch
  | accessDenied
  | connected
  | disconnected
  | connecting
deriving DecidableEq, Repr

/-- Observable view of a CPVRClient object: identity (ID(), InstanceId(),
GetID()), readiness flags (ReadyToUse(), IgnoreClient()) and the name and
icon used for progress reporting and event-log jobs. -/
structure CPVRClient where
  addonId : String
  instanceId : Nat
  id : Int
  readyToUse : Bool
  ignoreClient : Bool
  name : String
  icon : String
deriving DecidableEq, Repr

/-- Inventory entry delivered by the addon manager: AddonInfoPtr with its
known instance ids (GetKnownInstanceIds). -/
structure AddonInfo where
  id : String
  name : String
  icon : String
  instanceIds : List Nat
deriving DecidableEq, Repr

/-- Side effects recorded while running the modelled operations. -/
inductive Event where
  | mediaStop
  | reCreate (clientId : Int)
  | destroy (clientId : Int)
  | managerStop
  | managerStart
  | progress (name : String) (current total : Nat)
  | disableAddon (addonId : String)
  | eventLogJob (name : String)
deriving DecidableEq, Repr

/-- Modelled from the spec: the addon framework's instance-id constants live
in the addon framework headers, which are not part of this repository slice.
The implicit/singleton instance carries id 0 and the sentinel first-instance
id is 1 (the spec calls the first instance "the implicit/singleton
instance"). -/
def ADDON_SINGLETON_INSTANCE_ID : Nat := 0

/-- Modelled from the spec: sentinel id of the first regular instance, the
backward-compatibility special case of the client id derivation. -/
def ADDON_FIRST_INSTANCE_ID : Nat := 1

/-- Modelled from the spec: PVR_INVALID_CLIENT_ID, the invalid client id
constant from the PVR headers (valid client ids are strictly greater). -/
def PVR_INVALID_CLIENT_ID : Int := -2

/-- String actually passed to the hasher by ClientIdFromAddonIdAndInstanceId:
the instance prefix is prepended only when instanceID exceeds
ADDON_FIRST_INSTANCE_ID. -/
def hashedClientString (addonID : String) (instanceID : Nat) : String :=
  (if instanceID > ADDON_FIRST_INSTANCE_ID then toString instanceID ++ "@" else "") ++ addonID

/-- Truncating cast of a size_t hash value to a 32-bit signed int
(two's complement). -/
def toInt32 (n : Nat) : Int :=
  let r : Nat := n % 2 ^ 32
  if r < 2 ^ 31 then (r : Int) else (r : Int) - 2 ^ 32

/-- Signed 32-bit negation; overflow at INT_MIN (undefined behavior in C++)
is modelled as two's-complement wrap, which leaves INT_MIN unchanged. -/
def negWrap32 (x : Int) : Int :=
  if x = -(2 ^ 31) then -(2 ^ 31) else -x

/-- Post-processing the hash value into a client id: cast to int, then negate
when negative. -/
def clientIdOfHash (v : Nat) : Int :=
  let iClientId := toInt32 v
  if iClientId < 0 then negWrap32 iClientId else iClientId

/-- ClientIdFromAddonIdAndInstanceId: hash the (conditionally prefixed)
addon id string and make the result non-negative by negation. -/
def ClientIdFromAddonIdAndInstanceId (hasher : String → Nat) (addonID : String)
    (instanceID : Nat) : Int :=
  clientIdOfHash (hasher (hashedClientString addonID instanceID))

/-- The registry m_clientMap: association list keyed by client id, kept in
ascending key order like std::map. -/
abbrev Registry := List (Int × CPVRClient)

/-- Ordered insert-if-absent, the behavior of std::map::insert. -/
def mapInsert (k : Int) (v : CPVRClient) : List (Int × CPVRClient) → List (Int × CPVRClient)
  | [] => [(k, v)]
  | e :: rest =>
    if k < e.1 then (k, v) :: e :: rest
    else if k = e.1 then e :: rest
    else e :: mapInsert k v rest

/-- GetClient: reject ids at or below PVR_INVALID_CLIENT_ID, then look the id
up in the registry. -/
def GetClient (m : Registry) (iClientId : Int) : Option CPVRClient :=
  if iClientId ≤ PVR_INVALID_CLIENT_ID then none
  else (List.find? (fun e => e.1 == iClientId) m).map (fun e => e.2)

/-- GetClientId: linear scan of the registry for the entry whose client
matches (addonId, instanceId); its key, or -1. -/
def GetClientId (m : Registry) (addonId : String) (instanceId : Nat) : Int :=
  match List.find? (fun e => e.2.addonId == addonId && e.2.instanceId == instanceId) m with
  | some e => e.1
  | none => -1

/-- IsKnownClient: valid client ids start at 1. -/
def IsKnownClient (m : Registry) (addonId : String) (instanceId : Nat) : Bool :=
  GetClientId m addonId instanceId > 0

/-- IsCreatedClient (by addon id and instance id): the matching entry's
ReadyToUse flag, false when there is none. -/
def IsCreatedClient (m : Registry) (addonId : String) (instanceId : Nat) : Bool :=
  match List.find? (fun e => e.2.addonId == addonId && e.2.instanceId == instanceId) m with
  | some e => e.2.readyToUse
  | none => false

/-- CreatedClientAmount: count_if of entries whose client is ready to use. -/
def CreatedClientAmount (m : Registry) : Nat :=
  List.countP (fun e : Int × CPVRClient => e.2.readyToUse) m

/-- HasCreatedClients: any_of of entries whose client is ready to use. -/
def HasCreatedClients (m : Registry) : Bool :=
  List.any m (fun e => e.2.readyToUse)

/-- Error classification used by the dispatcher loops: an error other than
PVR_ERROR_NO_ERROR and PVR_ERROR_NOT_IMPLEMENTED. -/
def isNonTrivialError (e : PVRError) : Bool :=
  e != PVRError.noError && e != PVRError.notImplemented

/-- One inventory instance handled by GetCallableClients: derive the client
id, look the client up and classify it as callable or not ready. -/
def callableStep (hasher : String → Nat) (m : Registry) (addonId : String)
    (acc : List (Int × CPVRClient) × List Int) (instanceId : Nat) :
    List (Int × CPVRClient) × List Int :=
  let iClientId := ClientIdFromAddonIdAndInstanceId hasher addonId instanceId
  match GetClient m iClientId with
  | some client =>
    if client.readyToUse && !client.ignoreClient then
      (mapInsert iClientId client acc.1, acc.2)
    else (acc.1, acc.2 ++ [iClientId])
  | none => (acc.1, acc.2 ++ [iClientId])

/-- GetCallableClients: walk the enabled addon inventory and its instance
ids, partitioning derived client ids into the ready map and the not-ready
list. -/
def GetCallableClients (hasher : String → Nat) (addons : List AddonInfo) (m : Registry) :
    List (Int × CPVRClient) × List Int :=
  addons.foldl
    (fun acc addon => addon.instanceIds.foldl (callableStep hasher m addon.id) acc)
    ([], [])

/-- Iteration core of ForCreatedClients: invoke the operation on every entry
of the callable map, remembering the last non-trivial error and appending
failing keys to the failed list. The third component records each
invocation (the code's call of function(clientEntry.second)). -/
def dispatchLoop (f : CPVRClient → PVRError) :
    List (Int × CPVRClient) → PVRError → List Int → List (Int × CPVRClient) →
    PVRError × List Int × List (Int × CPVRClient)
  | [], lastError, failed, invoked => (lastError, failed, invoked)
  | c :: rest, lastError, failed, invoked =>
    let currentError := f c.2
    if isNonTrivialError currentError then
      dispatchLoop f rest currentError (failed ++ [c.1]) (invoked ++ [c])
    else
      dispatchLoop f rest lastError failed (invoked ++ [c])

/-- ForCreatedClients: partition the registry through GetCallableClients
(the warning log for not-callable entries has no modelled effect), then
fan the operation out over the callable map. Returns the aggregate error,
the failed client ids and the invocation trace. -/
def ForCreatedClients (hasher : String → Nat) (addons : List AddonInfo) (m : Registry)
    (f : CPVRClient → PVRError) : PVRError × List Int × List (Int × CPVRClient) :=
  let clients := GetCallableClients hasher addons m
  dispatchLoop f clients.1 PVRError.noError clients.2 []

/-- Body of the pre-filter loop of ForClients: a registry entry that is a
ready, non-ignored member of the requested subset is allowed, every other
entry is appended to the failed list. -/
def notParticipatingStep (clients : List CPVRClient) (acc : List Int)
    (entry : Int × CPVRClient) : List Int :=
  if entry.2.readyToUse && !entry.2.ignoreClient &&
      clients.any (fun client => client.id == entry.1) then
    acc
  else acc ++ [entry.1]

/-- Pre-filter loop of ForClients over the registry: every entry that is not
a ready, non-ignored member of the requested subset is appended to the
failed list. -/
def notParticipating (m : Registry) (clients : List CPVRClient) : List Int :=
  m.foldl (notParticipatingStep clients) []

/-- Iteration core of ForClients: invoke the operation on each requested
client whose id is not in the failed list (none_of); skipped clients are
only logged. The third component records each invocation. -/
def forClientsLoop (f : CPVRClient → PVRError) :
    List CPVRClient → PVRError → List Int → List (Int × CPVRClient) →
    PVRError × List Int × List (Int × CPVRClient)
  | [], lastError, failed, invoked => (lastError, failed, invoked)
  | client :: rest, lastError, failed, invoked =>
    if failed.all (fun failedClientId => failedClientId != client.id) then
      let currentError := f client
      if isNonTrivialError currentError then
        forClientsLoop f rest currentError (failed ++ [client.id]) (invoked ++ [(client.id, client)])
      else
        forClientsLoop f rest lastError failed (invoked ++ [(client.id, client)])
    else
      forClientsLoop f rest lastError failed invoked

/-- ForClients: an empty requested subset degrades to ForCreatedClients;
otherwise the failed list is seeded by the registry pre-filter and the
operation fans out over the requested subset. -/
def ForClients (hasher : String → Nat) (addons : List AddonInfo) (m : Registry)
    (clients : List CPVRClient) (f : CPVRClient → PVRError) :
    PVRError × List Int × List (Int × CPVRClient) :=
  if clients.isEmpty then ForCreatedClients hasher addons m f
  else forClientsLoop f clients PVRError.noError (notParticipating m clients) []

/-- StopClient: stop playback when something is playing, resolve the client
by (addonId, instanceId) and either recreate it in place or erase and
destroy it. Returns the new registry, the return value and the event
trace. -/
def StopClient (isPlaying : Bool) (m : Registry) (addonId : String) (instanceId : Nat)
    (bRestart : Bool) : Registry × Bool × List Event :=
  let trace := if isPlaying then [Event.mediaStop] else []
  let iId := GetClientId m addonId instanceId
  match GetClient m iId with
  | some _mappedClient =>
    if bRestart then (m, true, trace ++ [Event.reCreate iId])
    else (List.eraseP (fun e => e.1 == iId) m, true, trace ++ [Event.destroy iId])
  | none => (m, false, trace)

/-- Observable view of the client passed to ConnectionStateChange: its
previous connection state plus the name and icon used for the event-log
job. -/
structure ConnClientInfo where
  previousConnectionState : PVRConnectionState
  name : String
  icon : String
deriving DecidableEq, Repr

/-- Event-log job queued by ConnectionStateChange (CPVREventLogJob
arguments: notify flag, error flag, client name, message, client icon). -/
structure PVREventLogJob where
  bNotify : Bool
  bError : Bool
  name : String
  msg : String
  icon : String
deriving DecidableEq, Repr

/-- ConnectionStateChange: map the new connection state to message id, error
flag and notification flag (suppressing the notification for Connecting and
for the first Connected / ServerUnreachable after Unknown or Connecting),
then queue an event-log job; an unknown state only logs an error and queues
nothing, as does a null client. -/
def ConnectionStateChange (localize : Nat → String) (client : Option ConnClientInfo)
    (newState : PVRConnectionState) (strMessage : String) : Option PVREventLogJob :=
  match client with
  | none => none
  | some c =>
    let classified : Option (Nat × Bool × Bool) :=
      match newState with
      | PVRConnectionState.serverUnreachable =>
        some (35505, true,
          !(c.previousConnectionState == PVRConnectionState.unknown ||
            c.previousConnectionState == PVRConnectionState.connecting))
      | PVRConnectionState.serverMismatch => some (35506, true, true)
      | PVRConnectionState.versionMismatch => some (35507, true, true)
      | PVRConnectionState.accessDenied => some (35508, true, true)
      | PVRConnectionState.connected =>
        some (36034, false,
          !(c.previousConnectionState == PVRConnectionState.unknown ||
            c.previousConnectionState == PVRConnectionState.connecting))
      | PVRConnectionState.disconnected => some (36030, true, true)
      | PVRConnectionState.connecting => some (35509, false, false)
      | PVRConnectionState.unknown => none
    match classified with
    | none => none
    | some (iMsg, bError, bNotify) =>
      let strMsg := if strMessage ≠ "" then strMessage else localize iMsg
      some { bNotify := bNotify, bError := bError, name := c.name, msg := strMsg, icon := c.icon }

/-- Environment of UpdateAddons: the addon-manager inventory and external
oracles. The hasher stands for std::hash, isAddonDisabled for
CAddonMgr::IsAddonDisabled, instanceEnabledSetting for the per-instance
GetSettingBool of the instance-enabled value (none models a failing call,
which leaves the in/out argument unchanged), createStatus for
CPVRClient::Create and isPlaying for the playback state checked by
StopClient. -/
structure PVREnv where
  hasher : String → Nat
  addonInfos : List AddonInfo
  isAddonDisabled : String → Bool
  instanceEnabledSetting : String → Nat → Option Bool
  createStatus : String → Nat → AddonStatus
  isPlaying : Bool

/-- Action lists computed by the reconciliation diff: addonsToCreate
(client, client id), addonsToReCreate and addonsToDestroy (addon,
instance id). -/
abbrev ClassifyAcc :=
  List (CPVRClient × Int) × List (AddonInfo × Nat) × List (AddonInfo × Nat)

/-- Fresh CPVRClient built by std::make_shared<CPVRClient>(addon,
instanceId); make_shared never yields null, so the severe-error branch of
the C++ is unreachable and not modelled. -/
def mkClient (addon : AddonInfo) (instanceId : Nat) (iClientId : Int) : CPVRClient :=
  { addonId := addon.id, instanceId := instanceId, id := iClientId,
    readyToUse := false, ignoreClient := false, name := addon.name, icon := addon.icon }

/-- Instance list of one addon as seen by UpdateAddons: every known instance
paired with the addon-level enabled flag, plus a synthesized disabled entry
when the changed instance disappeared from the addon's known instances. -/
def instanceIdsWithStatus (addon : AddonInfo) (bEnabled : Bool) (changedAddonId : String)
    (changedInstanceId : Nat) : List (Nat × Bool) :=
  (addon.instanceIds.map (fun iid => (iid, bEnabled))) ++
    (if changedInstanceId != ADDON_SINGLETON_INSTANCE_ID && changedAddonId == addon.id &&
        !(addon.instanceIds.contains changedInstanceId) then
      [(changedInstanceId, false)]
    else [])

/-- Classification of one (addon, instance) pair into the create / recreate /
destroy action lists, mirroring the loop body of UpdateAddons. In the
known-but-not-created branch, the registry invariant (stored key equals the
derived id) makes the lookup by derived id succeed; the C++ would
dereference a null client otherwise, so the getD fallback is unreachable
there. -/
def classifyInstance (env : PVREnv) (m : Registry) (addon : AddonInfo) (acc : ClassifyAcc)
    (inst : Nat × Bool) : ClassifyAcc :=
  let instanceId := inst.1
  let instanceEnabled := inst.2
  if instanceEnabled &&
      (!(IsKnownClient m addon.id instanceId) || !(IsCreatedClient m addon.id instanceId)) then
    let iClientId := ClientIdFromAddonIdAndInstanceId env.hasher addon.id instanceId
    let client : CPVRClient :=
      if IsKnownClient m addon.id instanceId then
        (GetClient m iClientId).getD (mkClient addon instanceId iClientId)
      else mkClient addon instanceId iClientId
    let actualEnabled :=
      if instanceId != ADDON_SINGLETON_INSTANCE_ID then
        (env.instanceEnabledSetting addon.id instanceId).getD instanceEnabled
      else instanceEnabled
    if actualEnabled then (acc.1 ++ [(client, iClientId)], acc.2.1, acc.2.2)
    else (acc.1, acc.2.1, acc.2.2 ++ [(addon, instanceId)])
  else if IsCreatedClient m addon.id instanceId then
    let actualEnabled :=
      if instanceEnabled && instanceId != ADDON_SINGLETON_INSTANCE_ID then
        match GetClient m (GetClientId m addon.id instanceId) with
        | some _client => (env.instanceEnabledSetting addon.id instanceId).getD instanceEnabled
        | none => false
      else instanceEnabled
    if actualEnabled then (acc.1, acc.2.1 ++ [(addon, instanceId)], acc.2.2)
    else (acc.1, acc.2.1, acc.2.2 ++ [(addon, instanceId)])
  else acc

/-- Diff phase of UpdateAddons, run under the registry lock: classify every
(addon, instance) pair of the inventory. -/
def classify (env : PVREnv) (m : Registry) (changedAddonId : String)
    (changedInstanceId : Nat) : ClassifyAcc :=
  (env.addonInfos.map (fun addon => (addon, !env.isAddonDisabled addon.id))).foldl
    (fun acc addonWithStatus =>
      (instanceIdsWithStatus addonWithStatus.1 addonWithStatus.2 changedAddonId
          changedInstanceId).foldl
        (classifyInstance env m addonWithStatus.1) acc)
    ([], [], [])

/-- Create step of the apply phase: report progress, create the client and on
failure log; a permanent failure disables the addon and queues an event-log
job. -/
def applyCreate (env : PVREnv) (total : Nat) (st : Nat × List Event)
    (entry : CPVRClient × Int) : Nat × List Event :=
  let trace := st.2 ++ [Event.progress entry.1.name st.1 total]
  let status := env.createStatus entry.1.addonId entry.1.instanceId
  let trace :=
    if status != AddonStatus.ok then
      if status == AddonStatus.permanentFailure then
        trace ++ [Event.disableAddon entry.1.addonId, Event.eventLogJob entry.1.name]
      else trace
    else trace
  (st.1 + 1, trace)

/-- UpdateAddons: fetch the inventory, bail out when it is empty or the
changed addon is not a PVR addon, diff desired against actual state and, when
any action list is non-empty, stop the manager, apply creates (with
progress), recreates (StopClient with restart) and destroys (StopClient
without restart), merge the created clients into the registry and restart
the manager. Returns the new registry and the event trace. -/
def UpdateAddons (env : PVREnv) (m : Registry) (changedAddonId : String)
    (changedInstanceId : Nat) : Registry × List Event :=
  if env.addonInfos.isEmpty then (m, [])
  else
    let bFoundChangedAddon :=
      changedAddonId == "" || env.addonInfos.any (fun addon => addon.id == changedAddonId)
    if !bFoundChangedAddon then (m, [])
    else
      let actions := classify env m changedAddonId changedInstanceId
      let addonsToCreate := actions.1
      let addonsToReCreate := actions.2.1
      let addonsToDestroy := actions.2.2
      if addonsToCreate.isEmpty && addonsToReCreate.isEmpty && addonsToDestroy.isEmpty then
        (m, [])
      else
        let total := addonsToCreate.length + addonsToReCreate.length
        let st1 := addonsToCreate.foldl (applyCreate env total) (0, [Event.managerStop])
        let st2 := addonsToReCreate.foldl
          (fun (st : Registry × Nat × List Event) entry =>
            let trace := st.2.2 ++ [Event.progress entry.1.name st.2.1 total]
            let r := StopClient env.isPlaying st.1 entry.1.id entry.2 true
            (r.1, st.2.1 + 1, trace ++ r.2.2))
          (m, st1.1, st1.2)
        let st3 := addonsToDestroy.foldl
          (fun (st : Registry × List Event) entry =>
            let r := StopClient env.isPlaying st.1 entry.1.id entry.2 false
            (r.1, st.2 ++ r.2.2))
          (st2.1, st2.2.2)
        let mFinal := addonsToCreate.foldl (fun mm entry => mapInsert entry.2 entry.1 mm) st3.1
        (mFinal, st3.2 ++ [Event.managerStart])

/-- Aggregation rule in the words of the spec: the status is no-error unless
some invoked client returned an error other than not-implemented, in which
case the last such non-trivial error becomes the aggregate result. -/
def specAggregateFrom (lastError : PVRError) (results : List PVRError) : PVRError :=
  results.foldl (fun acc e => if isNonTrivialError e then e else acc) lastError

/-- Aggregate of a pass that starts with no error recorded. -/
def specAggregate (results : List PVRError) : PVRError :=
  specAggregateFrom PVRError.noError results

/-- Key order invariant of std::map contents: strictly ascending keys. -/
def keySorted (l : List (Int × CPVRClient)) : Prop :=
  l.Pairwise (fun a b => a.1 < b.1)

/-!
Theorems settling the claims.
-/

/-- C1 (counterexample): the singleton instance id 0 is distinct from the
sentinel first-instance id 1, yet the derivation hashes the addon id alone
for it instead of the claimed "<instanceID>@" + addonID string, and with a
hasher separating the two strings the derived id is the one of the bare
addon id. -/
theorem clientId_singleton_counterexample :
    ADDON_SINGLETON_INSTANCE_ID ≠ ADDON_FIRST_INSTANCE_ID ∧
    hashedClientString "pvr.demo" ADDON_SINGLETON_INSTANCE_ID = "pvr.demo" ∧
    hashedClientString "pvr.demo" ADDON_SINGLETON_INSTANCE_ID ≠
      toString ADDON_SINGLETON_INSTANCE_ID ++ "@" ++ "pvr.demo" ∧
    ClientIdFromAddonIdAndInstanceId (fun s => if s == "pvr.demo" then 3 else 7)
      "pvr.demo" ADDON_SINGLETON_INSTANCE_ID = 3 := by
  refine ⟨by decide, rfl, by decide, by decide⟩

/-- C1 (amended): client id derivation is a pure deterministic function; for
the sentinel first-instance id, and equally for the singleton instance id,
the hashed string is the addon id alone and the result equals the derivation
from the bare addon id; for every instance id greater than the sentinel the
hashed string is "<instanceID>@" + addonID. -/
theorem clientId_derivation_amended :
    (∀ (hasher : String → Nat) (addonID : String) (instanceID : Nat),
        ClientIdFromAddonIdAndInstanceId hasher addonID instanceID =
          ClientIdFromAddonIdAndInstanceId hasher addonID instanceID) ∧
    (∀ (hasher : String → Nat) (addonID : String),
        hashedClientString addonID ADDON_FIRST_INSTANCE_ID = addonID ∧
        hashedClientString addonID ADDON_SINGLETON_INSTANCE_ID = addonID ∧
        ClientIdFromAddonIdAndInstanceId hasher addonID ADDON_FIRST_INSTANCE_ID =
          clientIdOfHash (hasher addonID) ∧
        ClientIdFromAddonIdAndInstanceId hasher addonID ADDON_SINGLETON_INSTANCE_ID =
          clientIdOfHash (hasher addonID)) ∧
    (∀ (addonID : String) (instanceID : Nat),
        ADDON_FIRST_INSTANCE_ID < instanceID →
        hashedClientString addonID instanceID = toString instanceID ++ "@" ++ addonID) := by
  refine ⟨fun _ _ _ => rfl, fun hasher addonID => ⟨rfl, rfl, rfl, rfl⟩, ?_⟩
  intro addonID instanceID h
  unfold ADDON_FIRST_INSTANCE_ID at h
  simp [hashedClientString, ADDON_FIRST_INSTANCE_ID, h]

/-- C1 (witness for the amended theorem): instance id 2 exceeds the sentinel
and its hashed string carries the instance prefix. -/
theorem clientId_derivation_amended_witness :
    ADDON_FIRST_INSTANCE_ID < 2 ∧
    hashedClientString "pvr.demo" 2 = toString 2 ++ "@" ++ "pvr.demo" :=
  ⟨by decide, clientId_derivation_amended.2.2 "pvr.demo" 2 (by decide)⟩

/-- C5 (counterexample): a hash value whose int cast is 0 yields client id 0,
which is not strictly positive, contradicting the claim precisely in the
case it singles out. -/
theorem clientId_zero_counterexample :
    ¬ 0 < ClientIdFromAddonIdAndInstanceId (fun _ => 0) "pvr.demo"
      ADDON_FIRST_INSTANCE_ID := by
  decide

/-- C5 (amended): the derived client id is non-negative and strictly positive
except when the hash's int cast is 0 (the id is then 0) or INT_MIN (signed
negation overflows; under two's-complement wrap the id stays INT_MIN). -/
theorem clientId_sign_amended :
    ∀ (hasher : String → Nat) (addonID : String) (instanceID : Nat),
      (toInt32 (hasher (hashedClientString addonID instanceID)) ≠ -(2 ^ 31) →
        0 ≤ ClientIdFromAddonIdAndInstanceId hasher addonID instanceID) ∧
      (toInt32 (hasher (hashedClientString addonID instanceID)) ≠ -(2 ^ 31) →
        toInt32 (hasher (hashedClientString addonID instanceID)) ≠ 0 →
        0 < ClientIdFromAddonIdAndInstanceId hasher addonID instanceID) ∧
      (toInt32 (hasher (hashedClientString addonID instanceID)) = -(2 ^ 31) →
        ClientIdFromAddonIdAndInstanceId hasher addonID instanceID = -(2 ^ 31)) ∧
      (toInt32 (hasher (hashedClientString addonID instanceID)) = 0 →
        ClientIdFromAddonIdAndInstanceId hasher addonID instanceID = 0) := by
  intro hasher addonID instanceID
  simp only [ClientIdFromAddonIdAndInstanceId, clientIdOfHash, negWrap32]
  set c := toInt32 (hasher (hashedClientString addonID instanceID)) with hc
  refine ⟨?_, ?_, ?_, ?_⟩ <;> split_ifs <;> omega

/-- C5 (witness for the amended theorem): a hash value of 5 is neither 0 nor
INT_MIN after the cast, and the derived client id is strictly positive. -/
theorem clientId_sign_amended_witness :
    toInt32 ((5 : Nat)) ≠ -(2 ^ 31) ∧ toInt32 ((5 : Nat)) ≠ 0 ∧
    0 < ClientIdFromAddonIdAndInstanceId (fun _ => 5) "pvr.demo"
      ADDON_FIRST_INSTANCE_ID :=
  ⟨by decide, by decide,
    (clientId_sign_amended (fun _ => 5) "pvr.demo" ADDON_FIRST_INSTANCE_ID).2.1
      (by decide) (by decide)⟩

/-- C9: StopClient issues the stop-playback command whenever playback is
active, before and independent of the registry lookup — also when the lookup
fails and the call returns false, as on an empty registry. -/
theorem stopClient_stops_playback_unconditionally :
    ∀ (m : Registry) (addonId : String) (instanceId : Nat) (bRestart : Bool),
      Event.mediaStop ∈ (StopClient true m addonId instanceId bRestart).2.2 ∧
      (StopClient true [] addonId instanceId bRestart).2 =
        (false, [Event.mediaStop]) := by
  intro m addonId instanceId bRestart
  constructor
  · unfold StopClient
    cases h : GetClient m (GetClientId m addonId instanceId) with
    | none => simp [h]
    | some c => cases bRestart <;> simp [h]
  · rfl

/-- C10: HasCreatedClients holds exactly when CreatedClientAmount is strictly
positive; both range over the registered clients whose ready-to-use flag is
set. -/
theorem hasCreatedClients_iff_created_amount_pos :
    ∀ m : Registry, HasCreatedClients m = true ↔ 0 < CreatedClientAmount m := by
  intro m
  simp [HasCreatedClients, CreatedClientAmount, List.any_eq_true, List.countP_pos_iff]

/-- C7: transitions to ServerUnreachable or Connected from a previous state
of Unknown or Connecting carry no user notification, transitions to
Connecting never notify, a ServerUnreachable after Connected does notify,
and an unknown target state emits no event-log job at all. -/
theorem connectionStateChange_notifications :
    ∀ (localize : Nat → String) (c : ConnClientInfo) (strMessage : String),
      ((c.previousConnectionState = PVRConnectionState.unknown ∨
          c.previousConnectionState = PVRConnectionState.connecting) →
        (ConnectionStateChange localize (some c) PVRConnectionState.serverUnreachable
            strMessage).map (fun j => j.bNotify) = some false ∧
        (ConnectionStateChange localize (some c) PVRConnectionState.connected
            strMessage).map (fun j => j.bNotify) = some false) ∧
      (ConnectionStateChange localize (some c) PVRConnectionState.connecting
          strMessage).map (fun j => j.bNotify) = some false ∧
      (c.previousConnectionState = PVRConnectionState.connected →
        (ConnectionStateChange localize (some c) PVRConnectionState.serverUnreachable
            strMessage).map (fun j => j.bNotify) = some true) ∧
      ConnectionStateChange localize (some c) PVRConnectionState.unknown strMessage =
        none := by
  intro localize c strMessage
  refine ⟨?_, ?_, ?_, ?_⟩
  · rintro (h | h) <;> simp [ConnectionStateChange, h]
  · simp [ConnectionStateChange]
  · intro h
    simp [ConnectionStateChange, h]
  · simp [ConnectionStateChange]

/-- C7 (witness): a first ServerUnreachable right after Unknown is
suppressed while a ServerUnreachable after Connected notifies. -/
theorem connectionStateChange_notifications_witness :
    ((⟨PVRConnectionState.unknown, "demo", ""⟩ : ConnClientInfo).previousConnectionState =
        PVRConnectionState.unknown ∨
      (⟨PVRConnectionState.unknown, "demo", ""⟩ : ConnClientInfo).previousConnectionState =
        PVRConnectionState.connecting) ∧
    (ConnectionStateChange (fun _ => "msg") (some ⟨PVRConnectionState.unknown, "demo", ""⟩)
        PVRConnectionState.serverUnreachable "").map (fun j => j.bNotify) = some false ∧
    (ConnectionStateChange (fun _ => "msg") (some ⟨PVRConnectionState.connected, "demo", ""⟩)
        PVRConnectionState.serverUnreachable "").map (fun j => j.bNotify) = some true :=
  ⟨Or.inl rfl,
    ((connectionStateChange_notifications (fun _ => "msg")
        ⟨PVRConnectionState.unknown, "demo", ""⟩ "").1 (Or.inl rfl)).1,
    (connectionStateChange_notifications (fun _ => "msg")
        ⟨PVRConnectionState.connected, "demo", ""⟩ "").2.2.1 rfl⟩

/-- C8: a reconciliation pass whose computed create, recreate and destroy
action lists are all empty is a no-op — the registry is returned unchanged
and no event (manager stop or start, progress, client operation) is
emitted. -/
theorem updateAddons_noop :
    ∀ (env : PVREnv) (m : Registry) (changedAddonId : String) (changedInstanceId : Nat),
      classify env m changedAddonId changedInstanceId = ([], [], []) →
      UpdateAddons env m changedAddonId changedInstanceId = (m, []) := by
  intro env m changedAddonId changedInstanceId h
  unfold UpdateAddons
  split
  · rfl
  · simp [h]

/-- C8 (witness): an inventory holding one disabled, never-registered addon
classifies to empty action lists, and UpdateAddons leaves registry and trace
empty. -/
theorem updateAddons_noop_witness :
    classify
        { hasher := fun _ => 5,
          addonInfos := [{ id := "pvr.demo", name := "demo", icon := "",
                           instanceIds := [ADDON_SINGLETON_INSTANCE_ID] }],
          isAddonDisabled := fun _ => true,
          instanceEnabledSetting := fun _ _ => none,
          createStatus := fun _ _ => AddonStatus.ok,
          isPlaying := false } [] "" 0 = ([], [], []) ∧
    UpdateAddons
        { hasher := fun _ => 5,
          addonInfos := [{ id := "pvr.demo", name := "demo", icon := "",
                           instanceIds := [ADDON_SINGLETON_INSTANCE_ID] }],
          isAddonDisabled := fun _ => true,
          instanceEnabledSetting := fun _ _ => none,
          createStatus := fun _ _ => AddonStatus.ok,
          isPlaying := false } [] "" 0 = ([], []) :=
  ⟨by decide, updateAddons_noop _ [] "" 0 (by decide)⟩

/-- Erasing the entry keyed k from a registry with distinct keys leaves no
entry keyed k. -/
theorem eraseP_key_not_mem (k : Int) :
    ∀ m : List (Int × CPVRClient), (m.map (fun e => e.1)).Nodup →
      k ∉ (List.eraseP (fun e => e.1 == k) m).map (fun e => e.1) := by
  intro m
  induction m with
  | nil => simp
  | cons e rest ih =>
    intro hnodup
    simp only [List.map_cons, List.nodup_cons] at hnodup
    by_cases hk : e.1 = k
    · rw [List.eraseP_cons_of_pos (by simp [hk])]
      simpa [hk] using hnodup.1
    · rw [List.eraseP_cons_of_neg (by simp [hk])]
      simp only [List.map_cons, List.mem_cons]
      rintro (h | h)
      · exact hk h.symm
      · exact ih hnodup.2 h

/-- Entries with a different key survive the erasure. -/
theorem mem_eraseP_of_key_ne (k : Int) :
    ∀ (m : List (Int × CPVRClient)) (x : Int × CPVRClient),
      x ∈ m → x.1 ≠ k → x ∈ List.eraseP (fun e => e.1 == k) m := by
  intro m
  induction m with
  | nil => simp
  | cons e rest ih =>
    intro x hx hne
    by_cases hk : e.1 = k
    · rw [List.eraseP_cons_of_pos (by simp [hk])]
      rcases List.mem_cons.mp hx with h | h
      · exact absurd (h ▸ hk) hne
      · exact h
    · rw [List.eraseP_cons_of_neg (by simp [hk])]
      rcases List.mem_cons.mp hx with h | h
      · exact List.mem_cons.mpr (Or.inl h)
      · exact List.mem_cons.mpr (Or.inr (ih x h hne))

/-- When some registry entry matches (addonId, instanceId) and all keys are
non-negative, GetClient succeeds on the id resolved by GetClientId, and that
id is non-negative. -/
theorem getClient_getClientId_found (m : Registry) (addonId : String) (instanceId : Nat)
    (hpos : ∀ e ∈ m, 0 ≤ e.1)
    (hfound : ∃ e ∈ m, e.2.addonId = addonId ∧ e.2.instanceId = instanceId) :
    (GetClient m (GetClientId m addonId instanceId)).isSome = true ∧
    0 ≤ GetClientId m addonId instanceId := by
  obtain ⟨e, hem, he1, he2⟩ := hfound
  have hsome : (List.find?
      (fun e => e.2.addonId == addonId && e.2.instanceId == instanceId) m).isSome := by
    rw [List.find?_isSome]
    exact ⟨e, hem, by simp [he1, he2]⟩
  obtain ⟨e0, hfind⟩ := Option.isSome_iff_exists.mp hsome
  have he0m : e0 ∈ m := List.mem_of_find?_eq_some hfind
  have hid : GetClientId m addonId instanceId = e0.1 := by
    simp [GetClientId, hfind]
  have hge : 0 ≤ e0.1 := hpos e0 he0m
  refine ⟨?_, hid ▸ hge⟩
  rw [hid]
  unfold GetClient PVR_INVALID_CLIENT_ID
  rw [if_neg (by omega)]
  have : (List.find? (fun e => e.1 == e0.1) m).isSome := by
    rw [List.find?_isSome]
    exact ⟨e0, he0m, by simp⟩
  obtain ⟨e1, hfind1⟩ := Option.isSome_iff_exists.mp this
  simp [hfind1]

/-- When no registry entry matches (addonId, instanceId) and all keys are
non-negative, GetClientId resolves to -1 and GetClient fails on it. -/
theorem getClient_getClientId_not_found (m : Registry) (addonId : String) (instanceId : Nat)
    (hpos : ∀ e ∈ m, 0 ≤ e.1)
    (hnf : ¬ ∃ e ∈ m, e.2.addonId = addonId ∧ e.2.instanceId = instanceId) :
    GetClientId m addonId instanceId = -1 ∧
    GetClient m (GetClientId m addonId instanceId) = none := by
  have hfind : List.find?
      (fun e => e.2.addonId == addonId && e.2.instanceId == instanceId) m = none := by
    rw [List.find?_eq_none]
    intro x hx hpx
    exact hnf ⟨x, hx, by simpa using hpx⟩
  have hid : GetClientId m addonId instanceId = -1 := by
    simp [GetClientId, hfind]
  refine ⟨hid, ?_⟩
  rw [hid]
  unfold GetClient PVR_INVALID_CLIENT_ID
  rw [if_neg (by omega)]
  have : List.find? (fun e => e.1 == (-1 : Int)) m = none := by
    rw [List.find?_eq_none]
    intro x hx hpx
    have := hpos x hx
    have : x.1 = -1 := by simpa using hpx
    omega
  simp [this]

/-- C6: StopClient returns true exactly when a client with the given
(addonId, instanceId) is registered; with restart the registry is unchanged
and the client is recreated in place, without restart exactly its entry is
removed and the client destroyed; without a matching registration the
registry is untouched and false is returned. Registry keys are assumed
non-negative and distinct (the registry invariant: keys are derived,
non-negative client ids, one entry per id). -/
theorem stopClient_contract :
    ∀ (isPlaying : Bool) (m : Registry) (addonId : String) (instanceId : Nat)
      (bRestart : Bool),
      (∀ e ∈ m, 0 ≤ e.1) → (m.map (fun e => e.1)).Nodup →
      ((∃ e ∈ m, e.2.addonId = addonId ∧ e.2.instanceId = instanceId) →
        (StopClient isPlaying m addonId instanceId bRestart).2.1 = true ∧
        (bRestart = true →
          (StopClient isPlaying m addonId instanceId bRestart).1 = m ∧
          Event.reCreate (GetClientId m addonId instanceId) ∈
            (StopClient isPlaying m addonId instanceId bRestart).2.2) ∧
        (bRestart = false →
          GetClientId m addonId instanceId ∉
            ((StopClient isPlaying m addonId instanceId bRestart).1.map (fun e => e.1)) ∧
          (∀ x ∈ m, x.1 ≠ GetClientId m addonId instanceId →
            x ∈ (StopClient isPlaying m addonId instanceId bRestart).1) ∧
          (∀ x ∈ (StopClient isPlaying m addonId instanceId bRestart).1, x ∈ m) ∧
          Event.destroy (GetClientId m addonId instanceId) ∈
            (StopClient isPlaying m addonId instanceId bRestart).2.2)) ∧
      ((¬ ∃ e ∈ m, e.2.addonId = addonId ∧ e.2.instanceId = instanceId) →
        (StopClient isPlaying m addonId instanceId bRestart).1 = m ∧
        (StopClient isPlaying m addonId instanceId bRestart).2.1 = false) := by
  intro isPlaying m addonId instanceId bRestart hpos hnodup
  constructor
  · intro hfound
    obtain ⟨hsome, _⟩ := getClient_getClientId_found m addonId instanceId hpos hfound
    obtain ⟨c, hc⟩ := Option.isSome_iff_exists.mp hsome
    refine ⟨?_, ?_, ?_⟩
    · cases bRestart <;> simp [StopClient, hc]
    · intro hb
      subst hb
      refine ⟨by simp [StopClient, hc], by simp [StopClient, hc]⟩
    · intro hb
      subst hb
      refine ⟨?_, ?_, ?_, ?_⟩
      · simpa [StopClient, hc] using eraseP_key_not_mem (GetClientId m addonId instanceId) m hnodup
      · intro x hx hne
        simpa [StopClient, hc] using mem_eraseP_of_key_ne _ m x hx hne
      · intro x hx
        simp only [StopClient, hc] at hx
        exact List.mem_of_mem_eraseP hx
      · simp [StopClient, hc]
  · intro hnf
    obtain ⟨_, hnone⟩ := getClient_getClientId_not_found m addonId instanceId hpos hnf
    exact ⟨by simp [StopClient, hnone], by simp [StopClient, hnone]⟩

/-- C6 (witness): on a one-entry registry holding the client, StopClient with
restart succeeds and keeps the registry unchanged. -/
theorem stopClient_contract_witness :
    (∀ e ∈ ([(5, ⟨"pvr.demo", 1, 5, true, false, "demo", ""⟩)] : Registry), 0 ≤ e.1) ∧
    (∃ e ∈ ([(5, ⟨"pvr.demo", 1, 5, true, false, "demo", ""⟩)] : Registry),
      e.2.addonId = "pvr.demo" ∧ e.2.instanceId = 1) ∧
    (StopClient false [(5, ⟨"pvr.demo", 1, 5, true, false, "demo", ""⟩)] "pvr.demo" 1
        true).2.1 = true ∧
    (StopClient false [(5, ⟨"pvr.demo", 1, 5, true, false, "demo", ""⟩)] "pvr.demo" 1
        true).1 = [(5, ⟨"pvr.demo", 1, 5, true, false, "demo", ""⟩)] :=
  ⟨by decide, by decide,
    ((stopClient_contract false [(5, ⟨"pvr.demo", 1, 5, true, false, "demo", ""⟩)]
        "pvr.demo" 1 true (by decide) (by decide)).1 (by decide)).1,
    (((stopClient_contract false [(5, ⟨"pvr.demo", 1, 5, true, false, "demo", ""⟩)]
        "pvr.demo" 1 true (by decide) (by decide)).1 (by decide)).2.1 rfl).1⟩

/-- Unfolding of the ForCreatedClients iteration: the aggregate folds the
non-trivial errors, the failing keys are appended to the failed list in
order, and every list entry is invoked. -/
theorem dispatchLoop_eq (f : CPVRClient → PVRError) (cs : List (Int × CPVRClient)) :
    ∀ (lastError : PVRError) (failed : List Int) (inv : List (Int × CPVRClient)),
      dispatchLoop f cs lastError failed inv =
        (specAggregateFrom lastError (cs.map (fun c => f c.2)),
         failed ++ (cs.filter (fun c => isNonTrivialError (f c.2))).map (fun c => c.1),
         inv ++ cs) := by
  induction cs with
  | nil => intro le failed inv; simp [dispatchLoop, specAggregateFrom]
  | cons c rest ih =>
    intro le failed inv
    by_cases h : isNonTrivialError (f c.2) = true
    · simp [dispatchLoop, h, ih, specAggregateFrom]
    · simp [dispatchLoop, h, ih, specAggregateFrom]

/-- Unfolding of the ForClients iteration: for some subsequence of invoked
clients, the aggregate folds their non-trivial errors, their failing ids are
appended to the failed list and the invocation trace extends by exactly
them. -/
theorem forClientsLoop_eq (f : CPVRClient → PVRError) (cl : List CPVRClient) :
    ∀ (lastError : PVRError) (failed : List Int) (inv : List (Int × CPVRClient)),
      ∃ new : List (Int × CPVRClient),
        forClientsLoop f cl lastError failed inv =
          (specAggregateFrom lastError (new.map (fun c => f c.2)),
           failed ++ (new.filter (fun c => isNonTrivialError (f c.2))).map (fun c => c.1),
           inv ++ new) := by
  induction cl with
  | nil => intro le failed inv; exact ⟨[], by simp [forClientsLoop, specAggregateFrom]⟩
  | cons c rest ih =>
    intro le failed inv
    by_cases hskip : failed.all (fun failedClientId => failedClientId != c.id) = true
    · by_cases herr : isNonTrivialError (f c) = true
      · obtain ⟨new, hnew⟩ := ih (f c) (failed ++ [c.id]) (inv ++ [(c.id, c)])
        refine ⟨(c.id, c) :: new, ?_⟩
        simp [forClientsLoop, hskip, herr, hnew, specAggregateFrom]
      · obtain ⟨new, hnew⟩ := ih le failed (inv ++ [(c.id, c)])
        refine ⟨(c.id, c) :: new, ?_⟩
        simp [forClientsLoop, hskip, herr, hnew, specAggregateFrom]
    · obtain ⟨new, hnew⟩ := ih le failed inv
      exact ⟨new, by simp [forClientsLoop, hskip, hnew]⟩

/-- With pairwise distinct requested ids, the set of invoked clients is
decided by the initial failed list alone: ids appended by failing
invocations never match a later requested client. -/
theorem forClientsLoop_invoked (f : CPVRClient → PVRError) :
    ∀ (cl : List CPVRClient) (failed0 extra : List Int) (lastError : PVRError)
      (inv : List (Int × CPVRClient)),
      (cl.map (fun c => c.id)).Nodup →
      (∀ x ∈ extra, x ∉ cl.map (fun c => c.id)) →
      (forClientsLoop f cl lastError (failed0 ++ extra) inv).2.2 =
        inv ++ (cl.filter (fun c => failed0.all (fun x => x != c.id))).map
          (fun c => (c.id, c)) := by
  intro cl
  induction cl with
  | nil => intro failed0 extra le inv _ _; simp [forClientsLoop]
  | cons c rest ih =>
    intro failed0 extra le inv hnodup hextra
    simp only [List.map_cons, List.nodup_cons] at hnodup
    have hext : extra.all (fun fid => fid != c.id) = true := by
      rw [List.all_eq_true]
      intro x hx
      have : x ≠ c.id := by
        intro hxc
        exact hextra x hx (by simp [hxc])
      simpa using this
    have hcond : ((failed0 ++ extra).all (fun fid => fid != c.id)) =
        failed0.all (fun fid => fid != c.id) := by
      rw [List.all_append, hext, Bool.and_true]
    by_cases hc : failed0.all (fun fid => fid != c.id) = true
    · by_cases herr : isNonTrivialError (f c) = true
      · have hre : (forClientsLoop f (c :: rest) le (failed0 ++ extra) inv) =
            forClientsLoop f rest (f c) (failed0 ++ (extra ++ [c.id])) (inv ++ [(c.id, c)]) := by
          simp [forClientsLoop, hcond, hc, herr, List.append_assoc]
        rw [hre, ih failed0 (extra ++ [c.id]) (f c) (inv ++ [(c.id, c)]) hnodup.2 ?hx]
        case hx =>
          intro x hx
          rcases List.mem_append.mp hx with h | h
          · intro hmem
            exact hextra x h (by simp [hmem])
          · have : x = c.id := by simpa using h
            subst this
            exact hnodup.1
        simp [hc]
      · have hre : (forClientsLoop f (c :: rest) le (failed0 ++ extra) inv) =
            forClientsLoop f rest le (failed0 ++ extra) (inv ++ [(c.id, c)]) := by
          simp [forClientsLoop, hcond, hc, herr]
        rw [hre, ih failed0 extra le (inv ++ [(c.id, c)]) hnodup.2 ?hx2]
        case hx2 =>
          intro x hx hmem
          exact hextra x hx (by simp [hmem])
        simp [hc]
    · have hre : (forClientsLoop f (c :: rest) le (failed0 ++ extra) inv) =
          forClientsLoop f rest le (failed0 ++ extra) inv := by
        simp [forClientsLoop, hcond, hc]
      rw [hre, ih failed0 extra le inv hnodup.2 ?hx3]
      case hx3 =>
        intro x hx hmem
        exact hextra x hx (by simp [hmem])
      simp [hc]

/-- Foldl form of the ForClients pre-filter: it appends exactly the keys of
the registry entries that fail the participation test, in registry order. -/
theorem notParticipating_foldl (clients : List CPVRClient) :
    ∀ (m : List (Int × CPVRClient)) (acc : List Int),
      m.foldl (notParticipatingStep clients) acc =
        acc ++ (m.filter (fun e => !(e.2.readyToUse && !e.2.ignoreClient &&
          clients.any (fun client => client.id == e.1)))).map (fun e => e.1) := by
  intro m
  induction m with
  | nil => intro acc; simp
  | cons e rest ih =>
    intro acc
    rw [List.foldl_cons, List.filter_cons]
    by_cases h : (e.2.readyToUse && !e.2.ignoreClient &&
        clients.any (fun client => client.id == e.1)) = true
    · rw [show notParticipatingStep clients acc e = acc from by
        simp [notParticipatingStep, h]]
      rw [ih, if_neg (by simp [h])]
    · have hx : (e.2.readyToUse && !e.2.ignoreClient &&
          clients.any (fun client => client.id == e.1)) = false := by
        simpa using h
      rw [show notParticipatingStep clients acc e = acc ++ [e.1] from by
        simp [notParticipatingStep, hx]]
      rw [ih, if_pos (by simp [hx])]
      simp

/-- Characterization of the ForClients pre-filter as a filter over the
registry. -/
theorem notParticipating_eq (m : Registry) (clients : List CPVRClient) :
    notParticipating m clients =
      (m.filter (fun e => !(e.2.readyToUse && !e.2.ignoreClient &&
        clients.any (fun client => client.id == e.1)))).map (fun e => e.1) := by
  simpa using notParticipating_foldl clients m []

/-- Membership after an ordered insert: the new pair or an old entry. -/
theorem mem_mapInsert (k : Int) (v : CPVRClient) :
    ∀ (l : List (Int × CPVRClient)) (x : Int × CPVRClient),
      x ∈ mapInsert k v l → x = (k, v) ∨ x ∈ l := by
  intro l
  induction l with
  | nil =>
    intro x hx
    simp [mapInsert] at hx
    exact Or.inl hx
  | cons e rest ih =>
    intro x hx
    by_cases h1 : k < e.1
    · simp only [mapInsert, if_pos h1] at hx
      rcases List.mem_cons.mp hx with h | h
      · exact Or.inl h
      · exact Or.inr h
    · by_cases h2 : k = e.1
      · simp only [mapInsert, if_neg h1, if_pos h2] at hx
        exact Or.inr hx
      · simp only [mapInsert, if_neg h1, if_neg h2] at hx
        rcases List.mem_cons.mp hx with h | h
        · exact Or.inr (List.mem_cons.mpr (Or.inl h))
        · rcases ih x h with h3 | h3
          · exact Or.inl h3
          · exact Or.inr (List.mem_cons.mpr (Or.inr h3))

/-- Ordered insert-if-absent preserves strictly ascending keys. -/
theorem mapInsert_sorted (k : Int) (v : CPVRClient) :
    ∀ l : List (Int × CPVRClient), keySorted l → keySorted (mapInsert k v l) := by
  intro l
  induction l with
  | nil => intro _; simp [mapInsert, keySorted]
  | cons e rest ih =>
    intro hs
    rw [keySorted, List.pairwise_cons] at hs
    by_cases h1 : k < e.1
    · rw [keySorted]
      simp only [mapInsert, if_pos h1]
      rw [List.pairwise_cons]
      refine ⟨?_, List.pairwise_cons.mpr hs⟩
      intro b hb
      rcases List.mem_cons.mp hb with h | h
      · exact h ▸ h1
      · exact lt_trans h1 (hs.1 b h)
    · by_cases h2 : k = e.1
      · rw [keySorted]
        simp only [mapInsert, if_neg h1, if_pos h2]
        exact List.pairwise_cons.mpr hs
      · rw [keySorted]
        simp only [mapInsert, if_neg h1, if_neg h2]
        rw [List.pairwise_cons]
        have hlt : e.1 < k := by omega
        refine ⟨?_, ih hs.2⟩
        intro b hb
        rcases mem_mapInsert k v rest b hb with h | h
        · rw [h]
          exact hlt
        · exact hs.1 b h

/-- Generic foldl invariant preservation. -/
theorem foldl_preserve {α : Type} {β : Type} (P : α → Prop) (step : α → β → α)
    (hstep : ∀ a b, P a → P (step a b)) :
    ∀ (l : List β) (a : α), P a → P (l.foldl step a) := by
  intro l
  induction l with
  | nil => intro a ha; simpa using ha
  | cons b rest ih => intro a ha; simpa using ih (step a b) (hstep a b ha)

/-- One GetCallableClients step keeps the callable map sorted. -/
theorem callableStep_sorted (hasher : String → Nat) (m : Registry) (addonId : String)
    (acc : List (Int × CPVRClient) × List Int) (instanceId : Nat)
    (hs : keySorted acc.1) : keySorted (callableStep hasher m addonId acc instanceId).1 := by
  unfold callableStep
  cases h : GetClient m (ClientIdFromAddonIdAndInstanceId hasher addonId instanceId) with
  | none =>
    simp only [h]
    exact hs
  | some client =>
    simp only [h]
    split
    · exact mapInsert_sorted _ client acc.1 hs
    · exact hs

/-- The callable map built by GetCallableClients has strictly ascending
keys. -/
theorem getCallableClients_sorted (hasher : String → Nat) (addons : List AddonInfo)
    (m : Registry) : keySorted (GetCallableClients hasher addons m).1 := by
  unfold GetCallableClients
  refine foldl_preserve
    (fun acc : List (Int × CPVRClient) × List Int => keySorted acc.1) _ ?_ addons ([], []) ?_
  · intro acc addon hacc
    exact foldl_preserve
      (fun acc : List (Int × CPVRClient) × List Int => keySorted acc.1) _
      (fun a b ha => callableStep_sorted hasher m addon.id a b ha) addon.instanceIds acc hacc
  · simp [keySorted]

/-- Strictly ascending keys are pairwise distinct. -/
theorem keySorted_nodup_keys (l : List (Int × CPVRClient)) (hs : keySorted l) :
    (l.map (fun e => e.1)).Nodup := by
  rw [keySorted] at hs
  rw [List.Nodup, List.pairwise_map]
  exact hs.imp (fun h => ne_of_lt h)

/-- C2: in both fan-out entry points the aggregate status is no-error unless
some invoked client returned a non-trivial error (anything other than
no-error and not-implemented, the latter counting as silent success and not
failing the client), the failed list extends the pre-computed
failed-without-invocation list by exactly the ids of invoked clients whose
result was non-trivial, and the aggregate equals the last non-trivial error
of the pass. -/
theorem dispatch_error_aggregation :
    (∀ (hasher : String → Nat) (addons : List AddonInfo) (m : Registry)
        (f : CPVRClient → PVRError),
        (ForCreatedClients hasher addons m f).1 =
          specAggregate ((ForCreatedClients hasher addons m f).2.2.map (fun c => f c.2)) ∧
        (ForCreatedClients hasher addons m f).2.1 =
          (GetCallableClients hasher addons m).2 ++
            ((ForCreatedClients hasher addons m f).2.2.filter
              (fun c => isNonTrivialError (f c.2))).map (fun c => c.1)) ∧
    (∀ (hasher : String → Nat) (addons : List AddonInfo) (m : Registry)
        (cl : List CPVRClient) (f : CPVRClient → PVRError), cl ≠ [] →
        (ForClients hasher addons m cl f).1 =
          specAggregate ((ForClients hasher addons m cl f).2.2.map (fun c => f c.2)) ∧
        (ForClients hasher addons m cl f).2.1 =
          notParticipating m cl ++
            ((ForClients hasher addons m cl f).2.2.filter
              (fun c => isNonTrivialError (f c.2))).map (fun c => c.1)) := by
  constructor
  · intro hasher addons m f
    simp only [ForCreatedClients]
    rw [dispatchLoop_eq]
    simp [specAggregate]
  · intro hasher addons m cl f hcl
    obtain ⟨c, rest, rfl⟩ := List.exists_cons_of_ne_nil hcl
    simp only [ForClients, List.isEmpty_cons, Bool.false_eq_true, if_false]
    obtain ⟨new, hnew⟩ := forClientsLoop_eq f (c :: rest) PVRError.noError
      (notParticipating m (c :: rest)) []
    rw [hnew]
    simp [specAggregate]

/-- C2 (witness): a non-empty requested subset on an empty registry. -/
theorem dispatch_error_aggregation_witness :
    ([⟨"a", 1, 2, true, false, "n", ""⟩] : List CPVRClient) ≠ [] ∧
    (ForClients (fun _ => 0) [] [] [⟨"a", 1, 2, true, false, "n", ""⟩]
        (fun _ => PVRError.serverError)).1 =
      specAggregate ((ForClients (fun _ => 0) [] []
          [⟨"a", 1, 2, true, false, "n", ""⟩]
          (fun _ => PVRError.serverError)).2.2.map
        (fun c => (fun _ => PVRError.serverError) c.2)) :=
  ⟨by decide,
    (dispatch_error_aggregation.2 (fun _ => 0) [] []
      [⟨"a", 1, 2, true, false, "n", ""⟩] (fun _ => PVRError.serverError) (by decide)).1⟩

/-- C3: the invocation trace of a fan-out pass does not depend on the
per-client results — ForCreatedClients invokes exactly the callable map, in
order, and ForClients with a non-empty subset of pairwise distinct ids
invokes exactly the requested clients that pass the registry pre-filter;
with the distinct-ids reading of "target set" each targeted client is
invoked exactly once (the trace ids are pairwise distinct). -/
theorem dispatch_completeness :
    (∀ (hasher : String → Nat) (addons : List AddonInfo) (m : Registry)
        (f g : CPVRClient → PVRError),
        (ForCreatedClients hasher addons m f).2.2 = (GetCallableClients hasher addons m).1 ∧
        (ForCreatedClients hasher addons m f).2.2 = (ForCreatedClients hasher addons m g).2.2 ∧
        ((ForCreatedClients hasher addons m f).2.2.map (fun c => c.1)).Nodup) ∧
    (∀ (hasher : String → Nat) (addons : List AddonInfo) (m : Registry)
        (cl : List CPVRClient) (f g : CPVRClient → PVRError),
        cl ≠ [] → (cl.map (fun c => c.id)).Nodup →
        (ForClients hasher addons m cl f).2.2 =
          (cl.filter (fun c => (notParticipating m cl).all (fun x => x != c.id))).map
            (fun c => (c.id, c)) ∧
        (ForClients hasher addons m cl f).2.2 = (ForClients hasher addons m cl g).2.2 ∧
        ((ForClients hasher addons m cl f).2.2.map (fun c => c.1)).Nodup) := by
  have hcreated : ∀ (hasher : String → Nat) (addons : List AddonInfo) (m : Registry)
      (f : CPVRClient → PVRError),
      (ForCreatedClients hasher addons m f).2.2 = (GetCallableClients hasher addons m).1 := by
    intro hasher addons m f
    simp only [ForCreatedClients]
    rw [dispatchLoop_eq]
    simp
  have hsubset : ∀ (hasher : String → Nat) (addons : List AddonInfo) (m : Registry)
      (cl : List CPVRClient) (f : CPVRClient → PVRError),
      cl ≠ [] → (cl.map (fun c => c.id)).Nodup →
      (ForClients hasher addons m cl f).2.2 =
        (cl.filter (fun c => (notParticipating m cl).all (fun x => x != c.id))).map
          (fun c => (c.id, c)) := by
    intro hasher addons m cl f hcl hnodup
    obtain ⟨c, rest, rfl⟩ := List.exists_cons_of_ne_nil hcl
    simp only [ForClients, List.isEmpty_cons, Bool.false_eq_true, if_false]
    have := forClientsLoop_invoked f (c :: rest) (notParticipating m (c :: rest)) []
      PVRError.noError [] hnodup (by simp)
    simpa using this
  refine ⟨?_, ?_⟩
  · intro hasher addons m f g
    refine ⟨hcreated hasher addons m f, ?_, ?_⟩
    · rw [hcreated hasher addons m f, hcreated hasher addons m g]
    · rw [hcreated hasher addons m f]
      exact keySorted_nodup_keys _ (getCallableClients_sorted hasher addons m)
  · intro hasher addons m cl f g hcl hnodup
    refine ⟨hsubset hasher addons m cl f hcl hnodup, ?_, ?_⟩
    · rw [hsubset hasher addons m cl f hcl hnodup, hsubset hasher addons m cl g hcl hnodup]
    · rw [hsubset hasher addons m cl f hcl hnodup]
      rw [List.map_map]
      have hsub : List.Sublist
          ((cl.filter (fun c => (notParticipating m cl).all (fun x => x != c.id))).map
            (fun c => c.id))
          (cl.map (fun c => c.id)) :=
        (List.filter_sublist cl).map (fun c => c.id)
      have : ((cl.filter (fun c => (notParticipating m cl).all (fun x => x != c.id))).map
          (fun c => c.id)).Nodup := hnodup.sublist hsub
      simpa [Function.comp] using this

/-- C3 (witness): a singleton requested subset on an empty registry. -/
theorem dispatch_completeness_witness :
    ([⟨"a", 1, 2, true, false, "n", ""⟩] : List CPVRClient) ≠ [] ∧
    (([⟨"a", 1, 2, true, false, "n", ""⟩] : List CPVRClient).map (fun c => c.id)).Nodup ∧
    (ForClients (fun _ => 0) [] [] [⟨"a", 1, 2, true, false, "n", ""⟩]
        (fun _ => PVRError.noError)).2.2 =
      (([⟨"a", 1, 2, true, false, "n", ""⟩] : List CPVRClient).filter
          (fun c => (notParticipating [] [⟨"a", 1, 2, true, false, "n", ""⟩]).all
            (fun x => x != c.id))).map (fun c => (c.id, c)) :=
  ⟨by decide, by simp,
    (dispatch_completeness.2 (fun _ => 0) [] [] [⟨"a", 1, 2, true, false, "n", ""⟩]
      (fun _ => PVRError.noError) (fun _ => PVRError.noError) (by decide) (by simp)).1⟩

/-- C4 (counterexample): a ready, non-ignored registry entry (id 1) outside
the requested subset does appear in the returned failed-client list, and the
requested client (id 2), although absent from the registry, is invoked. -/
theorem forClients_nonparticipant_counterexample :
    ((1, ⟨"a", 1, 1, true, false, "n", ""⟩) : Int × CPVRClient).2.readyToUse = true ∧
    ((1, ⟨"a", 1, 1, true, false, "n", ""⟩) : Int × CPVRClient).2.ignoreClient = false ∧
    (ForClients (fun _ => 0) [] [(1, ⟨"a", 1, 1, true, false, "n", ""⟩)]
        [⟨"b", 1, 2, true, false, "p", ""⟩] (fun _ => PVRError.noError)).2.1 = [1] ∧
    (ForClients (fun _ => 0) [] [(1, ⟨"a", 1, 1, true, false, "n", ""⟩)]
        [⟨"b", 1, 2, true, false, "p", ""⟩] (fun _ => PVRError.noError)).2.2 =
      [(2, ⟨"b", 1, 2, true, false, "p", ""⟩)] := by
  refine ⟨rfl, rfl, by decide, by decide⟩

/-- C4 (amended): with a non-empty requested subset, a registry entry joins
the pre-computed failed list exactly when it is not a ready, non-ignored
member of the subset (so ready non-members are failed, not merely logged);
that list never gains entries from outside the registry; the operation is
invoked exactly on the requested clients whose id is not in the
pre-computed list (which includes requested clients absent from the
registry); and the pre-computed entries never affect the aggregate, which
only folds the invoked clients' non-trivial errors, the ids of which extend
the failed list. -/
theorem forClients_subset_amended :
    ∀ (hasher : String → Nat) (addons : List AddonInfo) (m : Registry)
      (cl : List CPVRClient) (f : CPVRClient → PVRError),
      cl ≠ [] → (cl.map (fun c => c.id)).Nodup → (m.map (fun e => e.1)).Nodup →
      (∀ e ∈ m, (e.1 ∈ notParticipating m cl ↔
          ¬(e.2.readyToUse = true ∧ e.2.ignoreClient = false ∧ ∃ c ∈ cl, c.id = e.1))) ∧
      (∀ x ∈ notParticipating m cl, ∃ e ∈ m, e.1 = x) ∧
      (ForClients hasher addons m cl f).2.2 =
        (cl.filter (fun c => (notParticipating m cl).all (fun x => x != c.id))).map
          (fun c => (c.id, c)) ∧
      (ForClients hasher addons m cl f).1 =
        specAggregate ((ForClients hasher addons m cl f).2.2.map (fun c => f c.2)) ∧
      (ForClients hasher addons m cl f).2.1 =
        notParticipating m cl ++
          ((ForClients hasher addons m cl f).2.2.filter
            (fun c => isNonTrivialError (f c.2))).map (fun c => c.1) := by
  intro hasher addons m cl f hcl hclnodup hkeys
  obtain ⟨c0, rest0, rfl⟩ := List.exists_cons_of_ne_nil hcl
  refine ⟨?_, ?_, ?_, ?_, ?_⟩
  · intro e hem
    rw [notParticipating_eq]
    constructor
    · intro hmem
      simp only [List.mem_map, List.mem_filter] at hmem
      obtain ⟨e1, ⟨he1m, hp⟩, hkey⟩ := hmem
      have he1e : e1 = e := List.inj_on_of_nodup_map hkeys he1m hem hkey
      subst he1e
      rintro ⟨h1, h2, c, hcm, hcid⟩
      rw [Bool.not_eq_eq_eq_not, Bool.not_true] at hp
      have : (e1.2.readyToUse && !e1.2.ignoreClient &&
          (c0 :: rest0).any (fun client => client.id == e1.1)) = true := by
        simp only [Bool.and_eq_true, List.any_eq_true]
        exact ⟨⟨h1, by simp [h2]⟩, c, hcm, by simp [hcid]⟩
      rw [this] at hp
      exact Bool.true_eq_false.mp hp
    · intro hnot
      cases hX : (e.2.readyToUse && !e.2.ignoreClient &&
          (c0 :: rest0).any (fun client => client.id == e.1)) with
      | true =>
        exfalso
        simp only [Bool.and_eq_true, Bool.not_eq_true', List.any_eq_true, beq_iff_eq] at hX
        exact hnot ⟨hX.1.1, hX.1.2, hX.2⟩
      | false =>
        exact List.mem_map.mpr
          ⟨e, List.mem_filter.mpr ⟨hem, by simp only [hX, Bool.not_false]⟩, rfl⟩
  · intro x hx
    rw [notParticipating_eq] at hx
    obtain ⟨e, he, hkey⟩ := List.mem_map.mp hx
    exact ⟨e, (List.mem_filter.mp he).1, hkey⟩
  · simp only [ForClients, List.isEmpty_cons, Bool.false_eq_true, if_false]
    have := forClientsLoop_invoked f (c0 :: rest0) (notParticipating m (c0 :: rest0)) []
      PVRError.noError [] hclnodup (by simp)
    simpa using this
  · simp only [ForClients, List.isEmpty_cons, Bool.false_eq_true, if_false]
    obtain ⟨new, hnew⟩ := forClientsLoop_eq f (c0 :: rest0) PVRError.noError
      (notParticipating m (c0 :: rest0)) []
    rw [hnew]
    simp [specAggregate]
  · simp only [ForClients, List.isEmpty_cons, Bool.false_eq_true, if_false]
    obtain ⟨new, hnew⟩ := forClientsLoop_eq f (c0 :: rest0) PVRError.noError
      (notParticipating m (c0 :: rest0)) []
    rw [hnew]
    simp

/-- C4 (witness for the amended theorem): one registered ready client that is
also the requested subset; it is not in the pre-computed failed list. -/
theorem forClients_subset_amended_witness :
    ([⟨"a", 1, 1, true, false, "n", ""⟩] : List CPVRClient) ≠ [] ∧
    (([(1, ⟨"a", 1, 1, true, false, "n", ""⟩)] : Registry).map (fun e => e.1)).Nodup ∧
    (((1, ⟨"a", 1, 1, true, false, "n", ""⟩) : Int × CPVRClient).1 ∈
        notParticipating [(1, ⟨"a", 1, 1, true, false, "n", ""⟩)]
          [⟨"a", 1, 1, true, false, "n", ""⟩] ↔
      ¬(((1, ⟨"a", 1, 1, true, false, "n", ""⟩) : Int × CPVRClient).2.readyToUse = true ∧
        ((1, ⟨"a", 1, 1, true, false, "n", ""⟩) : Int × CPVRClient).2.ignoreClient = false ∧
        ∃ c ∈ ([⟨"a", 1, 1, true, false, "n", ""⟩] : List CPVRClient), c.id = 1)) :=
  ⟨by decide, by simp,
    ((forClients_subset_amended (fun _ => 0) [] [(1, ⟨"a", 1, 1, true, false, "n", ""⟩)]
        [⟨"a", 1, 1, true, false, "n", ""⟩] (fun _ => PVRError.noError) (by decide)
        (by simp) (by simp)).1 (1, ⟨"a", 1, 1, true, false, "n", ""⟩) (by decide))⟩

end PVRClients
